import Mathlib

/-!
Shallow embedding of the CircuitCubes repository (src/CircuitCubes.py and
src/CircuitCubes/CircuitCubes.py, near-identical module versions).

The embedding models:
  * the `Constants` class: its 29-entry `constantsList`, `get_constant`
    (Python list indexing, including negative-index wraparound), and
    `set_address` (which rebinds the address attribute only);
  * `Cube.motor_command`, the pure command encoder, as an `Except`-valued
    function whose evaluation order follows the source: the velocity-range
    check is performed before the motor letter is ever used (in Python an
    unrecognized letter only raises when `motor` is read in the f-string);
  * the device operations (`async_run_motor`, `async_run_motors`,
    `async_halt`, `async_battery`, `async_device_information`,
    `async_connect`) as trace-producing functions: each BLE read/write and
    each sleep becomes an `Action`; the BLE transport itself is outside the
    source and is represented by the trace.
-/

namespace CircuitCubes

/-! ### UUID constants (Constants.__init__) -/

def CIRCUITCUBE_SERV : String := "6e400001-b5a3-f393-e0a9-e50e24dcca9e"
def TX_CHAR : String := "6e400002-b5a3-f393-e0a9-e50e24dcca9e"
def RX_CHAR : String := "6e400003-b5a3-f393-e0a9-e50e24dcca9e"
def RX_CLIENT_CHAR_CONFIG_DESC : String := "00002902-0000-1000-8000-00805f9b34fb"
def GAP_SERV : String := "00001800-0000-1000-8000-00805f9b34fb"
def DEVICE_NAME_CHAR : String := "00002a00-0000-1000-8000-00805f9b34fb"
def APPEARANCE_CHAR : String := "00002a01-0000-1000-8000-00805f9b34fb"
def PERIPHERAL_PRIVACY_CHAR : String := "00002a02-0000-1000-8000-00805f9b34fb"
def GATT_SERV : String := "00001801-0000-1000-8000-00805f9b34fb"
def SERVICE_CHANGED_CHAR : String := "00002a05-0000-1000-8000-00805f9b34fb"
def GATT_CLIENT_CHAR_CONFIG_DESC : String := "00002902-0000-1000-8000-00805f9b34fb"
def DEVICE_INFORMATION_SERV : String := "0000180a-0000-1000-8000-00805f9b34fb"
def SYSTEM_ID_CHAR : String := "00002a23-0000-1000-8000-00805f9b34fb"
def MODEL_NUMBER_STR_CHAR : String := "00002a24-0000-1000-8000-00805f9b34fb"
def SERIAL_NUMBER_STR_CHAR : String := "00002a25-0000-1000-8000-00805f9b34fb"
def FIRMWARE_REV_STR_CHAR : String := "00002a26-0000-1000-8000-00805f9b34fb"
def HARDWARE_REV_STR_CHAR : String := "00002a27-0000-1000-8000-00805f9b34fb"
def SOFTWARE_REV_STR_CHAR : String := "00002a28-0000-1000-8000-00805f9b34fb"
def MANUFACTURER_STR_CHAR : String := "00002a29-0000-1000-8000-00805f9b34fb"
def IEEE_REGULATORY_LIST_CHAR : String := "00002a2a-0000-1000-8000-00805f9b34fb"
def PLUGNPLAY_ID_CHAR : String := "00002a50-0000-1000-8000-00805f9b34fb"
def UNKNOWN_SERV : String := "f000ffc0-0451-4000-b000-000000000000"
def UNKNOWN_CHAR_1 : String := "f000ffc1-0451-4000-b000-000000000000"
def UNKNOWN_DESC_1 : String := "00002902-0000-1000-8000-00805f9b34fb"
def UNKNOWN_DESC_2 : String := "00002901-0000-1000-8000-00805f9b34fb"
def UNKNOWN_CHAR_2 : String := "f000ffc2-0451-4000-b000-000000000000"
def UNKNOWN_DESC_3 : String := "00002902-0000-1000-8000-00805f9b34fb"
def UNKNOWN_DESC_4 : String := "00002901-0000-1000-8000-00805f9b34fb"

/-- State of the `Constants` class.  `bluetooth_address` is the attribute
`self.BLUETOOTH_ADDRESS` (v1) / `self.bluetooth_address` (v2);
`constantsList` is `self.constantsList`.  In Python, strings are immutable
values, so the list built in `__init__` holds the *value* of the address
attribute at construction time; rebinding the attribute later does not
change the list.  The model keeps both components to stay faithful. -/
structure Constants where
  bluetooth_address : String
  constantsList : List String
deriving DecidableEq

/-- `Constants.__init__`: the address starts as the empty string and
`constantsList` is built from the attribute values at that moment (so
entry 0 is the empty string). -/
def Constants.init : Constants :=
  { bluetooth_address := ""
    constantsList :=
      ["",
       CIRCUITCUBE_SERV, TX_CHAR, RX_CHAR, RX_CLIENT_CHAR_CONFIG_DESC,
       GAP_SERV, DEVICE_NAME_CHAR, APPEARANCE_CHAR, PERIPHERAL_PRIVACY_CHAR,
       GATT_SERV, SERVICE_CHANGED_CHAR, GATT_CLIENT_CHAR_CONFIG_DESC,
       DEVICE_INFORMATION_SERV, SYSTEM_ID_CHAR, MODEL_NUMBER_STR_CHAR, SERIAL_NUMBER_STR_CHAR,
       FIRMWARE_REV_STR_CHAR, HARDWARE_REV_STR_CHAR, SOFTWARE_REV_STR_CHAR,
       MANUFACTURER_STR_CHAR, IEEE_REGULATORY_LIST_CHAR, PLUGNPLAY_ID_CHAR,
       UNKNOWN_SERV, UNKNOWN_CHAR_1, UNKNOWN_DESC_1, UNKNOWN_DESC_2,
       UNKNOWN_CHAR_2, UNKNOWN_DESC_3, UNKNOWN_DESC_4] }

/-- Python list subscription `xs[i]`: a negative index `i` addresses
`xs[len(xs) + i]`; an index that is still out of bounds after that
adjustment raises `IndexError`. -/
def pyListGet (xs : List String) (i : Int) : Except String String :=
  let j : Int := if i < 0 then i + xs.length else i
  if 0 ≤ j then
    match xs.get? j.toNat with
    | some v => .ok v
    | none => .error "IndexError: list index out of range"
  else .error "IndexError: list index out of range"

/-- `Constants.get_constant(self, index)`: `return self.constantsList[index]`. -/
def Constants.get_constant (c : Constants) (index : Int) : Except String String :=
  pyListGet c.constantsList index

/-- `Constants.set_address(self, address)`: rebinds the address attribute;
`constantsList` is untouched (it was built once in `__init__`). -/
def Constants.set_address (c : Constants) (address : String) : Constants :=
  { c with bluetooth_address := address }

/-! ### Cube.motor_command -/

/-- The two ways `motor_command` can raise in Python: the explicit
`ValueError` for an out-of-range velocity, and the `NameError` that occurs
when the f-string reads the never-assigned local `motor` for a letter
outside A/B/C. -/
inductive MotorError
  | velocityRange
  | unknownChannel
deriving DecidableEq

/-- The `if letter == 'A' ... elif ... elif ...` chain: the channel index
bound to the local `motor`, or `none` when no branch assigns it. -/
def motorIndex (letter : Char) : Option Nat :=
  if letter = 'A' then some 0
  else if letter = 'B' then some 1
  else if letter = 'C' then some 2
  else none

/-- Python `f'{n:03}'` for a natural number: the decimal representation,
left-padded with `'0'` to a minimum width of 3. -/
def pad3 (n : Nat) : String :=
  let s := Nat.repr n
  if s.length < 3 then String.mk (List.replicate (3 - s.length) '0' ++ s.data) else s

/-- `Cube.motor_command(self, letter, velocity)`.  Source order: the
letter→index chain merely binds `motor` (here: `motorIndex`, forced only
when the command string is built); then `sign`; then
`magnitude = abs(velocity*2)` with the range check raising `ValueError`;
then the remap `0 ↦ 0`, otherwise `55 + abs(velocity)`; finally the
f-string concatenating sign, the magnitude formatted to width 3 with zero
padding, and chr(ord('a') + motor), which is the first point at which an
unassigned `motor` raises. -/
def motor_command (letter : Char) (velocity : Int) : Except MotorError String :=
  let sign : String := if velocity < 0 then "-" else "+"
  let magnitude : Nat := (velocity * 2).natAbs
  if magnitude > 200 then
    .error .velocityRange
  else
    let magnitude : Nat := if (velocity * 2).natAbs = 0 then 0 else 55 + velocity.natAbs
    match motorIndex letter with
    | some motor => .ok (sign ++ pad3 magnitude ++ String.singleton (Char.ofNat (97 + motor)))
    | none => .error .unknownChannel

/-- The command string `motor_command` returns on the non-raising path,
as a standalone value (same sign, remapped magnitude and lowered letter
expressions as in `motor_command`). -/
def commandString (letter : Char) (velocity : Int) : String :=
  (if velocity < 0 then "-" else "+")
    ++ pad3 (if velocity = 0 then 0 else 55 + velocity.natAbs)
    ++ String.singleton (Char.ofNat (97 + (motorIndex letter).getD 0))

/-! ### Device operations as transport traces -/

/-- One observable transport interaction: a GATT characteristic write, a
GATT characteristic read, or an `asyncio.sleep`. -/
inductive Action
  | write (uuid : String) (data : String)
  | read (uuid : String)
  | sleep (time : Nat)
deriving DecidableEq

/-- `self.constants(i)`, i.e. `Constants.get_constant`, on the non-raising
path (every index the device operations use is in range, so the default
is never taken). -/
def constAt (c : Constants) (i : Int) : String :=
  (Constants.get_constant c i).toOption.getD ""

/-- A sequential Python `for` loop whose body may raise, collecting one
result per iteration; the first raise aborts the loop. -/
def mapExcept {α β : Type} (f : α → Except MotorError β) : List α → Except MotorError (List β)
  | [] => .ok []
  | x :: xs =>
    match f x with
    | .error e => .error e
    | .ok y =>
      match mapExcept f xs with
      | .error e => .error e
      | .ok ys => .ok (y :: ys)

/-- Loop body of the start loop in `async_run_motors` (and the single start
write of `async_run_motor`): encode `motor_command` and write it to `TX`. -/
def startWrite (TX : String) (p : Char × Int) : Except MotorError Action :=
  match motor_command p.1 p.2 with
  | .error e => .error e
  | .ok cmd => .ok (Action.write TX cmd)

/-- Loop body of the stop loop in `async_run_motors` and of `async_halt`:
encode the zero-velocity `motor_command` and write it to `TX`. -/
def stopWrite (TX : String) (letter : Char) : Except MotorError Action :=
  match motor_command letter 0 with
  | .error e => .error e
  | .ok cmd => .ok (Action.write TX cmd)

/-- `Cube.async_run_motor(self, letter, velocity, time, **kwargs)`: write
the command to `TX = self.constants(2)`, sleep, and unless `smooth` write
the zero-velocity command. -/
def async_run_motor (c : Constants) (letter : Char) (velocity : Int) (time : Nat)
    (smooth : Bool) : Except MotorError (List Action) :=
  let TX := constAt c 2
  match startWrite TX (letter, velocity) with
  | .error e => .error e
  | .ok start =>
    if smooth then .ok [start, Action.sleep time]
    else
      match stopWrite TX letter with
      | .error e => .error e
      | .ok stop => .ok [start, Action.sleep time, stop]

/-- `Cube.async_run_motors(self, letters, velocities, time, **kwargs)`:
one start write per `zip(letters, velocities)` pair in order, one sleep,
then unless `smooth` one zero-velocity write per letter in order. -/
def async_run_motors (c : Constants) (letters : List Char) (velocities : List Int)
    (time : Nat) (smooth : Bool) : Except MotorError (List Action) :=
  let TX := constAt c 2
  match mapExcept (startWrite TX) (letters.zip velocities) with
  | .error e => .error e
  | .ok starts =>
    if smooth then .ok (starts ++ [Action.sleep time])
    else
      match mapExcept (stopWrite TX) letters with
      | .error e => .error e
      | .ok stops => .ok (starts ++ [Action.sleep time] ++ stops)

/-- `Cube.async_halt(self)`: one zero-velocity write to `TX` for each of
the letters A, B, C. -/
def async_halt (c : Constants) : Except MotorError (List Action) :=
  mapExcept (stopWrite (constAt c 2)) ['A', 'B', 'C']

/-- `Cube.async_battery(self)`: write the query byte b to
`TX = self.constants(2)`, then read the voltage from
`RX = self.constants(3)`. -/
def async_battery (c : Constants) : List Action :=
  [Action.write (constAt c 2) "b", Action.read (constAt c 3)]

/-- `Cube.async_device_information(self)` (v1) / `Cube.async_information`
(v2): read the six device-information characteristics, then issue the
battery query write on `TX` and read the voltage from `RX`. -/
def async_device_information (c : Constants) : List Action :=
  [Action.read (constAt c 6), Action.read (constAt c 7), Action.read (constAt c 15),
   Action.read (constAt c 16), Action.read (constAt c 17), Action.read (constAt c 18),
   Action.write (constAt c 2) "b", Action.read (constAt c 3)]

/-! ### Connection -/

/-- The two `ConnectionError` raises of `async_connect` (v1): no device
at all discovered, or no discovered device matching the marker. -/
inductive ConnectError
  | noBLEDevices
  | noCircuitCube
deriving DecidableEq

/-- Outcome of a successful `async_connect`: whether a discovery scan was
performed, and the resolved address stored into `self.address`. -/
structure ConnectOutcome where
  scanned : Bool
  address : String
deriving DecidableEq

/-- Helper for Python substring containment: does `needle` occur as a
contiguous run inside the second list? -/
def strContainsAux (needle : List Char) : List Char → Bool
  | [] => needle.isEmpty
  | c :: rest => needle.isPrefixOf (c :: rest) || strContainsAux needle rest

/-- Python `needle in hay` on strings. -/
def strContains (needle hay : String) : Bool := strContainsAux needle.data hay.data

/-- `Cube.async_connect(self, address)` (v1), with the BLE scanner
modelled by the list of device strings `BleakScanner.discover()` would
yield (Python `str(j)`; by the bleak convention the first 17 characters of
such a string are the peer address, which the source extracts with a slice
of length 17).  A non-empty address skips discovery; an empty address
scans, raises when no device is discovered or none whose string contains
the marker Tenka, and otherwise selects the first match. -/
def async_connect (address : String) (devices : List String) :
    Except ConnectError ConnectOutcome :=
  if address ≠ "" then
    .ok { scanned := false, address := address }
  else if devices.length = 0 then
    .error .noBLEDevices
  else
    match devices.filter (fun j => strContains "Tenka" j) with
    | [] => .error .noCircuitCube
    | d :: _ => .ok { scanned := true, address := String.mk (d.data.take 17) }

/-! ### Helper lemmas -/

theorem pad3_length_three (m : Nat) (hm : m ≤ 155) : (pad3 m).length = 3 := by
  have h : ((List.range 156).all fun k => (pad3 k).length == 3) = true := by decide
  have h2 := List.all_eq_true.mp h m (List.mem_range.mpr (by omega))
  simpa using h2

theorem commandString_data (letter : Char) (velocity : Int) :
    (commandString letter velocity).data =
      (if velocity < 0 then '-' else '+')
        :: ((pad3 (if velocity = 0 then 0 else 55 + velocity.natAbs)).data
          ++ [Char.ofNat (97 + (motorIndex letter).getD 0)]) := by
  by_cases hneg : velocity < 0 <;>
    simp [commandString, hneg, String.singleton]

theorem motor_command_ok_eq (letter : Char) (velocity : Int)
    (hl : letter = 'A' ∨ letter = 'B' ∨ letter = 'C')
    (hv : velocity.natAbs ≤ 100) :
    motor_command letter velocity = .ok (commandString letter velocity) := by
  have h200 : ¬ ((velocity * 2).natAbs > 200) := by omega
  have hz : ((velocity * 2).natAbs = 0) = (velocity = 0) := by
    simp only [eq_iff_iff]; omega
  rcases hl with h|h|h <;> subst h <;>
    simp [motor_command, commandString, motorIndex, if_neg h200, hz]

theorem mapExcept_ok_of_forall {α β : Type} (f : α → Except MotorError β) (g : α → β)
    (xs : List α) (h : ∀ x ∈ xs, f x = .ok (g x)) :
    mapExcept f xs = .ok (xs.map g) := by
  induction xs with
  | nil => rfl
  | cons x xs ih =>
    have hx := h x (by simp)
    have hxs := ih (fun y hy => h y (by simp [hy]))
    simp [mapExcept, hx, hxs]

theorem mapExcept_mem {α β : Type} (f : α → Except MotorError β) (xs : List α)
    (ys : List β) (h : mapExcept f xs = .ok ys) :
    ∀ y ∈ ys, ∃ x ∈ xs, f x = .ok y := by
  induction xs generalizing ys with
  | nil =>
    simp only [mapExcept] at h
    cases h
    simp
  | cons x xs ih =>
    cases hfx : f x with
    | error e => simp [mapExcept, hfx] at h
    | ok y0 =>
      cases hrest : mapExcept f xs with
      | error e => simp [mapExcept, hfx, hrest] at h
      | ok ys0 =>
        simp [mapExcept, hfx, hrest] at h
        subst h
        intro y hy
        rcases List.mem_cons.mp hy with hy | hy
        · exact ⟨x, by simp, hy ▸ hfx⟩
        · obtain ⟨x1, hx1, hfx1⟩ := ih ys0 hrest y hy
          exact ⟨x1, by simp [hx1], hfx1⟩

theorem startWrite_ok_shape {TX : String} {p : Char × Int} {a : Action}
    (h : startWrite TX p = .ok a) : ∃ d, a = Action.write TX d := by
  cases hmc : motor_command p.1 p.2 with
  | error e => simp [startWrite, hmc] at h
  | ok cmd =>
    simp [startWrite, hmc] at h
    exact ⟨cmd, h.symm⟩

theorem stopWrite_ok_shape {TX : String} {l : Char} {a : Action}
    (h : stopWrite TX l = .ok a) : ∃ d, a = Action.write TX d := by
  cases hmc : motor_command l 0 with
  | error e => simp [stopWrite, hmc] at h
  | ok cmd =>
    simp [stopWrite, hmc] at h
    exact ⟨cmd, h.symm⟩

theorem startWrite_eq (TX : String) (p : Char × Int)
    (hl : p.1 = 'A' ∨ p.1 = 'B' ∨ p.1 = 'C') (hv : p.2.natAbs ≤ 100) :
    startWrite TX p = .ok (Action.write TX (commandString p.1 p.2)) := by
  simp [startWrite, motor_command_ok_eq p.1 p.2 hl hv]

theorem stopWrite_eq (TX : String) (l : Char)
    (hl : l = 'A' ∨ l = 'B' ∨ l = 'C') :
    stopWrite TX l = .ok (Action.write TX (commandString l 0)) := by
  simp [stopWrite, motor_command_ok_eq l 0 hl (by decide)]

theorem mem_zip_left {α β : Type} {xs : List α} {ys : List β}
    (hlen : xs.length = ys.length) {x : α} (hx : x ∈ xs) :
    ∃ y, (x, y) ∈ xs.zip ys := by
  induction xs generalizing ys with
  | nil => simp at hx
  | cons a xs ih =>
    cases ys with
    | nil => simp at hlen
    | cons b ys =>
      rcases List.mem_cons.mp hx with h | h
      · exact ⟨b, by simp [h]⟩
      · obtain ⟨y, hy⟩ := ih (by simpa using hlen) h
        exact ⟨y, by simp [hy]⟩

theorem constAt_of_list_eq {c : Constants}
    (hc : c.constantsList = Constants.init.constantsList) (i : Int) :
    constAt c i = constAt Constants.init i := by
  unfold constAt Constants.get_constant
  rw [hc]

/-- The three worked examples of the spec, evaluated on the embedding. -/
theorem motor_command_spec_examples :
    motor_command 'A' 40 = .ok "+095a" ∧
    motor_command 'B' (-100) = .ok "-155b" ∧
    motor_command 'C' 0 = .ok "+000c" :=
  ⟨rfl, rfl, rfl⟩

/-! ### Claim theorems -/

/-- C1: for every channel letter in A/B/C and every velocity with
|v| ≤ 100, `motor_command` returns a 5-character string: character 0 is
the sign (minus for negative, plus otherwise, including zero),
characters 1-3 are the magnitude (0 for v = 0, else 55 + |v|) zero-padded
to 3 digits, and character 4 is the channel letter lowered. -/
theorem motor_command_valid_format (letter : Char) (velocity : Int)
    (hl : letter = 'A' ∨ letter = 'B' ∨ letter = 'C')
    (hv : velocity.natAbs ≤ 100) :
    ∃ s, motor_command letter velocity = .ok s ∧
      s.length = 5 ∧
      s.data[0]? = some (if velocity < 0 then '-' else '+') ∧
      (s.data.drop 1).take 3 = (pad3 (if velocity = 0 then 0 else 55 + velocity.natAbs)).data ∧
      s.data[4]? = some (if letter = 'A' then 'a' else if letter = 'B' then 'b' else 'c') := by
  have hmle : (if velocity = 0 then 0 else 55 + velocity.natAbs) ≤ 155 := by
    by_cases h0 : velocity = 0 <;> simp [h0] <;> omega
  have hp3 : (pad3 (if velocity = 0 then 0 else 55 + velocity.natAbs)).data.length = 3 :=
    pad3_length_three _ hmle
  refine ⟨commandString letter velocity, motor_command_ok_eq letter velocity hl hv,
    ?_, ?_, ?_, ?_⟩
  · show (commandString letter velocity).data.length = 5
    rw [commandString_data]
    simp [hp3]
  · rw [commandString_data]
    simp
  · rw [commandString_data]
    simp only [List.drop_succ_cons, List.drop_zero]
    exact List.take_left' hp3
  · rw [commandString_data]
    rcases hl with h|h|h <;> subst h <;>
      simp [motorIndex, List.getElem?_append_right, hp3]

/-- C1 witness: the theorem instantiated at channel A, velocity 40. -/
theorem motor_command_valid_format_w :
    ∃ s, motor_command 'A' 40 = .ok s ∧
      s.length = 5 ∧
      s.data[0]? = some (if (40 : Int) < 0 then '-' else '+') ∧
      (s.data.drop 1).take 3 =
        (pad3 (if (40 : Int) = 0 then 0 else 55 + (40 : Int).natAbs)).data ∧
      s.data[4]? = some (if 'A' = 'A' then 'a' else if 'A' = 'B' then 'b' else 'c') :=
  motor_command_valid_format 'A' 40 (Or.inl rfl) (by decide)

/-- C2: for a channel letter in A/B/C, `motor_command` raises the
velocity-range `ValueError` exactly when |v| > 100, and for |v| ≤ 100 it
returns a command string without error. -/
theorem motor_command_velocity_range (letter : Char) (velocity : Int)
    (hl : letter = 'A' ∨ letter = 'B' ∨ letter = 'C') :
    (motor_command letter velocity = .error .velocityRange ↔ 100 < velocity.natAbs) ∧
    (velocity.natAbs ≤ 100 → ∃ s, motor_command letter velocity = .ok s) := by
  constructor
  · constructor
    · intro h
      by_contra hc
      push_neg at hc
      rw [motor_command_ok_eq letter velocity hl hc] at h
      exact absurd h (by simp)
    · intro h
      simp [motor_command, show (velocity * 2).natAbs > 200 by omega]
  · intro h
    exact ⟨_, motor_command_ok_eq letter velocity hl h⟩

/-- C2 witness: on channel A, velocity 101 raises the range error and
velocity 50 returns a command string. -/
theorem motor_command_velocity_range_w :
    motor_command 'A' 101 = .error .velocityRange ∧
    ∃ s, motor_command 'A' 50 = .ok s :=
  ⟨(motor_command_velocity_range 'A' 101 (Or.inl rfl)).1.mpr (by decide),
   (motor_command_velocity_range 'A' 50 (Or.inl rfl)).2 (by decide)⟩

/-- C3: for a letter outside A/B/C (lowercase letters included) and a
velocity with |v| ≤ 100, `motor_command` fails (the local `motor` is never
assigned, so building the command string raises) rather than returning a
command string. -/
theorem motor_command_unknown_channel (letter : Char) (velocity : Int)
    (hA : letter ≠ 'A') (hB : letter ≠ 'B') (hC : letter ≠ 'C')
    (hv : velocity.natAbs ≤ 100) :
    motor_command letter velocity = .error .unknownChannel := by
  have h200 : ¬ ((velocity * 2).natAbs > 200) := by omega
  simp [motor_command, motorIndex, hA, hB, hC, if_neg h200]

/-- C3 witness: the D of the spec example and a lowercase a both fail. -/
theorem motor_command_unknown_channel_w :
    motor_command 'D' 10 = .error .unknownChannel ∧
    motor_command 'a' 50 = .error .unknownChannel :=
  ⟨motor_command_unknown_channel 'D' 10 (by decide) (by decide) (by decide) (by decide),
   motor_command_unknown_channel 'a' 50 (by decide) (by decide) (by decide) (by decide)⟩

/-- C9: for a letter outside A/B/C and a velocity with 2|v| > 200,
`motor_command` raises the velocity-range error, not the
unrecognized-channel failure: the range check is evaluated before the
letter is ever used to build the command string. -/
theorem motor_command_range_check_first (letter : Char) (velocity : Int)
    (hA : letter ≠ 'A') (hB : letter ≠ 'B') (hC : letter ≠ 'C')
    (hv : 200 < (velocity * 2).natAbs) :
    motor_command letter velocity = .error .velocityRange := by
  simp [motor_command, show (velocity * 2).natAbs > 200 from hv]

/-- C9 witness: letter D with velocity 101 raises the range error. -/
theorem motor_command_range_check_first_w :
    motor_command 'D' 101 = .error .velocityRange :=
  motor_command_range_check_first 'D' 101 (by decide) (by decide) (by decide) (by decide)

/-- C4 (code bug, evaluated at the failing input): `set_address` rebinds
the address attribute, but `constantsList` still holds the value captured
in `__init__`, so `get_constant(0)` keeps returning the original empty
string instead of the new address; every table entry (index 0 included)
is unchanged by `set_address`. -/
theorem set_address_not_visible_in_table :
    Constants.get_constant (Constants.set_address Constants.init "AA:BB:CC:DD:EE:FF") 0
      = .ok "" ∧
    (Constants.set_address Constants.init "AA:BB:CC:DD:EE:FF").bluetooth_address
      = "AA:BB:CC:DD:EE:FF" ∧
    ∀ i : Int, Constants.get_constant (Constants.set_address Constants.init "AA:BB:CC:DD:EE:FF") i
      = Constants.get_constant Constants.init i :=
  ⟨rfl, rfl, fun _ => rfl⟩

/-- C5 counterexample: the claim says `get_constant` fails for every index
outside [0, 28], every negative index included; but Python negative
indexing makes `get_constant(-1)` succeed, returning the last entry. -/
theorem get_constant_neg_index_succeeds :
    Constants.get_constant Constants.init (-1)
      = .ok "00002901-0000-1000-8000-00805f9b34fb" := by rfl

/-- C5 (amended): `get_constant(i)` returns the entry at position i for
i in [0, 28] and, by Python negative indexing, the entry at position
29 + i for i in [-29, -1]; it fails with the out-of-range error exactly
for i ≥ 29 or i < -29.  Lookup is stable across calls: `get_constant`
takes the table, returns a value and performs no mutation. -/
theorem get_constant_python_semantics (i : Int) :
    (0 ≤ i → i ≤ 28 →
      Constants.get_constant Constants.init i
        = .ok (Constants.init.constantsList.getD i.toNat "")) ∧
    (-29 ≤ i → i < 0 →
      Constants.get_constant Constants.init i
        = .ok (Constants.init.constantsList.getD (i + 29).toNat "")) ∧
    ((i < -29 ∨ 28 < i) →
      Constants.get_constant Constants.init i
        = .error "IndexError: list index out of range") := by
  refine ⟨?_, ?_, ?_⟩
  · intro h1 h2
    interval_cases i <;> rfl
  · intro h1 h2
    interval_cases i <;> rfl
  · intro h
    have hL : Constants.init.constantsList.length = 29 := rfl
    simp only [Constants.get_constant, pyListGet, hL]
    rcases h with h | h
    · rw [if_pos (by omega : i < 0),
        if_neg (by push_cast; omega : ¬ (0 : Int) ≤ i + ((29 : Nat) : Int))]
    · rw [if_neg (by omega : ¬ i < 0), if_pos (by omega : (0 : Int) ≤ i)]
      have hnone : Constants.init.constantsList.get? i.toNat = none := by
        rw [List.get?_eq_none, hL]
        omega
      rw [hnone]

/-- C5 witness: the amended theorem instantiated at indices 5, -1 and 29. -/
theorem get_constant_python_semantics_w :
    Constants.get_constant Constants.init 5
      = .ok (Constants.init.constantsList.getD (5 : Int).toNat "") ∧
    Constants.get_constant Constants.init (-1)
      = .ok (Constants.init.constantsList.getD ((-1 : Int) + 29).toNat "") ∧
    Constants.get_constant Constants.init 29
      = .error "IndexError: list index out of range" :=
  ⟨(get_constant_python_semantics 5).1 (by decide) (by decide),
   (get_constant_python_semantics (-1)).2.1 (by decide) (by decide),
   (get_constant_python_semantics 29).2.2 (Or.inr (by decide))⟩

/-- C6: run_motors without smooth issues exactly two writes per motor —
first one start command per (motor, velocity) pair in list order, then,
after the sleep of the given duration, one zero-velocity stop command per
motor in the same order; with smooth set, run_motors (and run_motor for a
single motor) issue exactly one write per motor and never the stop
command. -/
theorem run_motors_trace (c : Constants) (letters : List Char) (velocities : List Int)
    (time : Nat)
    (hlen : letters.length = velocities.length)
    (hvalid : ∀ p ∈ letters.zip velocities,
      (p.1 = 'A' ∨ p.1 = 'B' ∨ p.1 = 'C') ∧ p.2.natAbs ≤ 100) :
    async_run_motors c letters velocities time false =
      .ok ((letters.zip velocities).map
            (fun p => Action.write (constAt c 2) (commandString p.1 p.2))
          ++ [Action.sleep time]
          ++ letters.map (fun l => Action.write (constAt c 2) (commandString l 0))) ∧
    async_run_motors c letters velocities time true =
      .ok ((letters.zip velocities).map
            (fun p => Action.write (constAt c 2) (commandString p.1 p.2))
          ++ [Action.sleep time]) ∧
    (∀ letter velocity, (letter = 'A' ∨ letter = 'B' ∨ letter = 'C') →
      velocity.natAbs ≤ 100 →
      async_run_motor c letter velocity time true =
        .ok [Action.write (constAt c 2) (commandString letter velocity),
             Action.sleep time]) := by
  have hstarts : mapExcept (startWrite (constAt c 2)) (letters.zip velocities)
      = .ok ((letters.zip velocities).map
          (fun p => Action.write (constAt c 2) (commandString p.1 p.2))) :=
    mapExcept_ok_of_forall _ _ _
      (fun p hp => startWrite_eq _ p (hvalid p hp).1 (hvalid p hp).2)
  have hletters : ∀ l ∈ letters, l = 'A' ∨ l = 'B' ∨ l = 'C' := by
    intro l hl
    obtain ⟨v, hv⟩ := mem_zip_left hlen hl
    exact (hvalid _ hv).1
  have hstops : mapExcept (stopWrite (constAt c 2)) letters
      = .ok (letters.map (fun l => Action.write (constAt c 2) (commandString l 0))) :=
    mapExcept_ok_of_forall _ _ _ (fun l hl => stopWrite_eq _ l (hletters l hl))
  refine ⟨?_, ?_, ?_⟩
  · simp [async_run_motors, hstarts, hstops]
  · simp [async_run_motors, hstarts]
  · intro letter velocity hl hv
    simp [async_run_motor, startWrite_eq (constAt c 2) (letter, velocity) hl hv]

/-- C6 witness: the trace of run_motors on motors A and B with velocities
50 and -30 and the smooth option unset. -/
theorem run_motors_trace_w :
    async_run_motors Constants.init ['A', 'B'] [50, -30] 1 false =
      .ok ((['A', 'B'].zip [(50 : Int), -30]).map
            (fun p => Action.write (constAt Constants.init 2) (commandString p.1 p.2))
          ++ [Action.sleep 1]
          ++ ['A', 'B'].map
            (fun l => Action.write (constAt Constants.init 2) (commandString l 0))) :=
  (run_motors_trace Constants.init ['A', 'B'] [50, -30] 1 rfl (by decide)).1

/-- C7: halt issues exactly three writes, one zero-velocity stop command
per known channel A, B, C, for every constants state with an intact table;
halt takes no motor state at all, so the result is the same regardless of
which motors were previously started or with what velocities. -/
theorem halt_three_stops (c : Constants)
    (hc : c.constantsList = Constants.init.constantsList) :
    async_halt c =
      .ok [Action.write "6e400002-b5a3-f393-e0a9-e50e24dcca9e" "+000a",
           Action.write "6e400002-b5a3-f393-e0a9-e50e24dcca9e" "+000b",
           Action.write "6e400002-b5a3-f393-e0a9-e50e24dcca9e" "+000c"] := by
  have htx : constAt c 2 = "6e400002-b5a3-f393-e0a9-e50e24dcca9e" := by
    rw [constAt_of_list_eq hc]
    rfl
  unfold async_halt
  rw [htx]
  rfl

/-- C7 witness: the theorem at the freshly initialized constants state. -/
theorem halt_three_stops_w :
    async_halt Constants.init =
      .ok [Action.write "6e400002-b5a3-f393-e0a9-e50e24dcca9e" "+000a",
           Action.write "6e400002-b5a3-f393-e0a9-e50e24dcca9e" "+000b",
           Action.write "6e400002-b5a3-f393-e0a9-e50e24dcca9e" "+000c"] :=
  halt_three_stops Constants.init rfl

/-- C8: connect with a non-empty address performs no discovery scan and
stores that address; with an empty address it scans and stores the
address (the 17-character prefix of the device string) of the first
discovered device containing the marker Tenka; when discovery yields no
matching candidate it fails with a no-device error. -/
theorem connect_discovery (address : String) (devices : List String) :
    (address ≠ "" →
      async_connect address devices = .ok { scanned := false, address := address }) ∧
    (address = "" → ∀ d rest,
      devices.filter (fun j => strContains "Tenka" j) = d :: rest →
      async_connect address devices
        = .ok { scanned := true, address := String.mk (d.data.take 17) }) ∧
    (address = "" → devices.filter (fun j => strContains "Tenka" j) = [] →
      ∃ e, async_connect address devices = .error e) := by
  refine ⟨?_, ?_, ?_⟩
  · intro h
    simp [async_connect, h]
  · intro h d rest hf
    subst h
    have hne : devices.length ≠ 0 := by
      intro h0
      rw [List.length_eq_zero.mp h0] at hf
      simp at hf
    simp [async_connect, hne, hf]
  · intro h hf
    subst h
    cases devices with
    | nil => exact ⟨.noBLEDevices, by simp [async_connect]⟩
    | cons d ds => exact ⟨.noCircuitCube, by simp [async_connect, hf]⟩

/-- C8 witness: an explicit address skips the scan and is stored; an empty
address discovers a Tenka device and stores its 17-character address
prefix; an empty scan fails. -/
theorem connect_discovery_w :
    async_connect "AA:BB:CC:DD:EE:FF" [] =
      .ok { scanned := false, address := "AA:BB:CC:DD:EE:FF" } ∧
    async_connect "" ["12:34:56:78:9A:BC: Tenka"] =
      .ok { scanned := true,
            address := String.mk ("12:34:56:78:9A:BC: Tenka".data.take 17) } ∧
    ∃ e, async_connect "" [] = .error e :=
  ⟨(connect_discovery "AA:BB:CC:DD:EE:FF" []).1 (by decide),
   (connect_discovery "" ["12:34:56:78:9A:BC: Tenka"]).2.1 rfl
     "12:34:56:78:9A:BC: Tenka" [] (by decide),
   (connect_discovery "" []).2.2 rfl rfl⟩

theorem run_motor_writes {c : Constants} {letter : Char} {velocity : Int}
    {time : Nat} {smooth : Bool} {tr : List Action}
    (htr : async_run_motor c letter velocity time smooth = .ok tr) :
    ∀ a ∈ tr, a = Action.sleep time ∨ ∃ d, a = Action.write (constAt c 2) d := by
  simp only [async_run_motor] at htr
  cases hst : startWrite (constAt c 2) (letter, velocity) with
  | error e =>
    rw [hst] at htr
    exact absurd htr (by simp)
  | ok start =>
    rw [hst] at htr
    obtain ⟨d0, rfl⟩ := startWrite_ok_shape hst
    cases smooth with
    | true =>
      simp only [if_pos trivial, Except.ok.injEq, if_true] at htr
      subst htr
      intro a ha
      rcases List.mem_cons.mp ha with h | h
      · exact Or.inr ⟨d0, h⟩
      · simp at h
        exact Or.inl h
    | false =>
      cases hsp : stopWrite (constAt c 2) letter with
      | error e =>
        rw [hsp] at htr
        exact absurd htr (by simp)
      | ok stop =>
        rw [hsp] at htr
        obtain ⟨d1, rfl⟩ := stopWrite_ok_shape hsp
        simp only [if_false, Except.ok.injEq, Bool.false_eq_true, if_neg] at htr
        subst htr
        intro a ha
        rcases List.mem_cons.mp ha with h | h
        · exact Or.inr ⟨d0, h⟩
        · rcases List.mem_cons.mp h with h2 | h2
          · exact Or.inl h2
          · simp at h2
            exact Or.inr ⟨d1, h2⟩

theorem run_motors_writes {c : Constants} {letters : List Char}
    {velocities : List Int} {time : Nat} {smooth : Bool} {tr : List Action}
    (htr : async_run_motors c letters velocities time smooth = .ok tr) :
    ∀ a ∈ tr, a = Action.sleep time ∨ ∃ d, a = Action.write (constAt c 2) d := by
  simp only [async_run_motors] at htr
  cases hst : mapExcept (startWrite (constAt c 2)) (letters.zip velocities) with
  | error e =>
    rw [hst] at htr
    exact absurd htr (by simp)
  | ok starts =>
    rw [hst] at htr
    have hstartsMem : ∀ a ∈ starts, ∃ d, a = Action.write (constAt c 2) d := by
      intro a ha
      obtain ⟨p, _, hfp⟩ := mapExcept_mem _ _ _ hst a ha
      exact startWrite_ok_shape hfp
    cases smooth with
    | true =>
      simp only [if_true, Except.ok.injEq] at htr
      subst htr
      intro a ha
      rcases List.mem_append.mp ha with h | h
      · exact Or.inr (hstartsMem a h)
      · simp at h
        exact Or.inl h
    | false =>
      cases hsp : mapExcept (stopWrite (constAt c 2)) letters with
      | error e =>
        rw [hsp] at htr
        exact absurd htr (by simp)
      | ok stops =>
        rw [hsp] at htr
        have hstopsMem : ∀ a ∈ stops, ∃ d, a = Action.write (constAt c 2) d := by
          intro a ha
          obtain ⟨l, _, hfl⟩ := mapExcept_mem _ _ _ hsp a ha
          exact stopWrite_ok_shape hfl
        simp only [Bool.false_eq_true, if_false, Except.ok.injEq, if_neg] at htr
        subst htr
        intro a ha
        rcases List.mem_append.mp ha with h | h
        · rcases List.mem_append.mp h with h2 | h2
          · exact Or.inr (hstartsMem a h2)
          · simp at h2
            exact Or.inl h2
        · exact Or.inr (hstopsMem a h)

theorem halt_writes {c : Constants} {tr : List Action}
    (htr : async_halt c = .ok tr) :
    ∀ a ∈ tr, ∃ d, a = Action.write (constAt c 2) d := by
  intro a ha
  obtain ⟨l, _, hfl⟩ := mapExcept_mem _ _ _ htr a ha
  exact stopWrite_ok_shape hfl

/-- C10: in every successful trace of run_motor, run_motors and halt,
every write targets the constant-table entry at index 2, the TX UUID
6e400002-b5a3-f393-e0a9-e50e24dcca9e; the battery operation writes the
query byte b to that same characteristic and reads the voltage from the
entry at index 3, the RX UUID 6e400003-b5a3-f393-e0a9-e50e24dcca9e; the
device-information operation only reads the six information
characteristics and likewise writes b only to TX and reads the voltage
from RX — no device operation writes to any other characteristic. -/
theorem writes_target_tx (c : Constants)
    (hc : c.constantsList = Constants.init.constantsList) :
    Constants.get_constant c 2 = .ok "6e400002-b5a3-f393-e0a9-e50e24dcca9e" ∧
    Constants.get_constant c 3 = .ok "6e400003-b5a3-f393-e0a9-e50e24dcca9e" ∧
    (∀ letter velocity time smooth tr,
      async_run_motor c letter velocity time smooth = .ok tr →
      ∀ uuid data, Action.write uuid data ∈ tr →
        uuid = "6e400002-b5a3-f393-e0a9-e50e24dcca9e") ∧
    (∀ letters velocities time smooth tr,
      async_run_motors c letters velocities time smooth = .ok tr →
      ∀ uuid data, Action.write uuid data ∈ tr →
        uuid = "6e400002-b5a3-f393-e0a9-e50e24dcca9e") ∧
    (∀ tr, async_halt c = .ok tr →
      ∀ uuid data, Action.write uuid data ∈ tr →
        uuid = "6e400002-b5a3-f393-e0a9-e50e24dcca9e") ∧
    async_battery c = [Action.write "6e400002-b5a3-f393-e0a9-e50e24dcca9e" "b",
                       Action.read "6e400003-b5a3-f393-e0a9-e50e24dcca9e"] ∧
    async_device_information c =
      [Action.read "00002a00-0000-1000-8000-00805f9b34fb",
       Action.read "00002a01-0000-1000-8000-00805f9b34fb",
       Action.read "00002a25-0000-1000-8000-00805f9b34fb",
       Action.read "00002a26-0000-1000-8000-00805f9b34fb",
       Action.read "00002a27-0000-1000-8000-00805f9b34fb",
       Action.read "00002a28-0000-1000-8000-00805f9b34fb",
       Action.write "6e400002-b5a3-f393-e0a9-e50e24dcca9e" "b",
       Action.read "6e400003-b5a3-f393-e0a9-e50e24dcca9e"] := by
  have htx : constAt c 2 = "6e400002-b5a3-f393-e0a9-e50e24dcca9e" := by
    rw [constAt_of_list_eq hc]
    rfl
  have hrx : constAt c 3 = "6e400003-b5a3-f393-e0a9-e50e24dcca9e" := by
    rw [constAt_of_list_eq hc]
    rfl
  have h6 : constAt c 6 = "00002a00-0000-1000-8000-00805f9b34fb" := by
    rw [constAt_of_list_eq hc]
    rfl
  have h7 : constAt c 7 = "00002a01-0000-1000-8000-00805f9b34fb" := by
    rw [constAt_of_list_eq hc]
    rfl
  have h15 : constAt c 15 = "00002a25-0000-1000-8000-00805f9b34fb" := by
    rw [constAt_of_list_eq hc]
    rfl
  have h16 : constAt c 16 = "00002a26-0000-1000-8000-00805f9b34fb" := by
    rw [constAt_of_list_eq hc]
    rfl
  have h17 : constAt c 17 = "00002a27-0000-1000-8000-00805f9b34fb" := by
    rw [constAt_of_list_eq hc]
    rfl
  have h18 : constAt c 18 = "00002a28-0000-1000-8000-00805f9b34fb" := by
    rw [constAt_of_list_eq hc]
    rfl
  refine ⟨?_, ?_, ?_, ?_, ?_, ?_, ?_⟩
  · unfold Constants.get_constant
    rw [hc]
    rfl
  · unfold Constants.get_constant
    rw [hc]
    rfl
  · intro letter velocity time smooth tr htr uuid data hmem
    rcases run_motor_writes htr _ hmem with h | ⟨d, hd⟩
    · exact absurd h (by simp)
    · injection hd with h1 _
      exact h1.trans htx
  · intro letters velocities time smooth tr htr uuid data hmem
    rcases run_motors_writes htr _ hmem with h | ⟨d, hd⟩
    · exact absurd h (by simp)
    · injection hd with h1 _
      exact h1.trans htx
  · intro tr htr uuid data hmem
    obtain ⟨d, hd⟩ := halt_writes htr _ hmem
    injection hd with h1 _
    exact h1.trans htx
  · simp [async_battery, htx, hrx]
  · simp [async_device_information, htx, hrx, h6, h7, h15, h16, h17, h18]

/-- C10 witness: the battery trace at the freshly initialized constants
state writes b to the TX UUID and reads the RX UUID. -/
theorem writes_target_tx_w :
    async_battery Constants.init
      = [Action.write "6e400002-b5a3-f393-e0a9-e50e24dcca9e" "b",
         Action.read "6e400003-b5a3-f393-e0a9-e50e24dcca9e"] :=
  (writes_target_tx Constants.init rfl).2.2.2.2.2.1

end CircuitCubes
